import Mathlib

/-!
Verification development for the OpenType font-table access layer of
`dlls/usp10/opentype.c` (cmap format-12 glyph resolution, GDEF glyph
classification, glyph property annotation, and the lazy per-context
table cache).

The development has two layers:

* a record-level embedding of the parsed table structures (the
  `CMAP_SegmentedCoverage` view, the `GDEF` header and class-definition
  subtable) together with the functions `compare_group`, `bsearchAux`
  (the C `bsearch` call specialised to `compare_group`),
  `OpenType_CMAP_GetGlyphIndex`, `GDEF_get_glyph_class` and
  `OpenType_GDEF_UpdateGlyphProps`;

* a byte-level embedding of the raw fetched buffers used by
  `load_CMAP_format12_table` and `load_gdef_table`, in which every
  multi-byte big-endian read is an `Option` (`none` = the read would go
  past the end of the fetched buffer), so that out-of-bounds accesses of
  the original pointer-cast code become observable.

Machine integers are modelled as `Nat`; the only place where C integer
truncation matters is the assignment of a 32-bit glyph computation to the
16-bit out-parameter `*pgi`, modelled with an explicit `% 65536`.
-/

/-! ## Glyph classes (enum  BaseGlyph=1, LigatureGlyph, MarkGlyph, ComponentGlyph ) -/

def BaseGlyph : Nat := 1
def LigatureGlyph : Nat := 2
def MarkGlyph : Nat := 3
def ComponentGlyph : Nat := 4

/-! ## GDEF table, record level

`GDEF_ClassDefTable` models the class-definition subtable located at the
header's `GlyphClassDef` offset.  The C code reinterprets the same bytes
as `GDEF_ClassDefFormat1` or `GDEF_ClassDefFormat2` depending on the
stored `ClassFormat` word, so the record carries the fields of both
layouts; `GDEF_get_glyph_class` consults only the fields of the layout
selected by `ClassFormat`.  `GlyphClassDef = none` in `GDEF_Header`
models a zero `GlyphClassDef` offset, and passing `none` for the header
itself models an absent `GDEF` table. -/

structure GDEF_ClassRangeRecord where
  Start : Nat
  End : Nat
  Class : Nat
deriving DecidableEq

structure GDEF_ClassDefTable where
  ClassFormat : Nat
  StartGlyph : Nat
  GlyphCount : Nat
  ClassValueArray : List Nat
  ClassRangeCount : Nat
  ClassRangeRecord : List GDEF_ClassRangeRecord
deriving DecidableEq

structure GDEF_Header where
  GlyphClassDef : Option GDEF_ClassDefTable
deriving DecidableEq

/-- Linear scan of the format-2 class ranges in stored order, first match
wins; models the `for (i = 0; i < top; i++) ... break;` loop of
`GDEF_get_glyph_class`. -/
def class_ranges_lookup (glyph : Nat) : List GDEF_ClassRangeRecord → Nat
  | [] => 0
  | r :: rest =>
    if r.Start ≤ glyph ∧ glyph ≤ r.End then r.Class
    else class_ranges_lookup glyph rest

/-- Embedding of `GDEF_get_glyph_class` (opentype.c lines 199-241).
`class` starts at 0 and is only assigned in the recognised branches; an
unrecognised `ClassFormat` is logged in C (`ERR`) and leaves the class 0.
The loop bound of the format-2 branch is the stored `ClassRangeCount`,
modelled by scanning `ClassRangeRecord.take ClassRangeCount`. -/
def GDEF_get_glyph_class (header : Option GDEF_Header) (glyph : Nat) : Nat :=
  match header with
  | none => 0
  | some h =>
    match h.GlyphClassDef with
    | none => 0
    | some cf1 =>
      if cf1.ClassFormat = 1 then
        if cf1.StartGlyph ≤ glyph then
          if glyph - cf1.StartGlyph < cf1.GlyphCount then
            cf1.ClassValueArray.getD (glyph - cf1.StartGlyph) 0
          else 0
        else 0
      else if cf1.ClassFormat = 2 then
        class_ranges_lookup glyph (cf1.ClassRangeRecord.take cf1.ClassRangeCount)
      else 0

/-! ## C4, C5, C6 : classifier behaviour -/

/-- The claim C4: for a format-1 class-definition subtable,
`classify glyph` is `ClassValueArray[glyph - StartGlyph]` whenever
`StartGlyph ≤ glyph` and `glyph - StartGlyph < GlyphCount`, and 0
(Unclassified) otherwise, stated for well-formed subtables whose stored
`GlyphCount` equals the length of the stored class array. -/
theorem C4_gdef_format1_classify (start count glyph : Nat) (arr : List Nat)
    (hw : count = arr.length) :
    (∀ hlt : glyph - start < arr.length, start ≤ glyph →
      GDEF_get_glyph_class (some ⟨some ⟨1, start, count, arr, 0, []⟩⟩) glyph =
        arr.get ⟨glyph - start, hlt⟩) ∧
    (glyph < start →
      GDEF_get_glyph_class (some ⟨some ⟨1, start, count, arr, 0, []⟩⟩) glyph = 0) ∧
    (arr.length ≤ glyph - start →
      GDEF_get_glyph_class (some ⟨some ⟨1, start, count, arr, 0, []⟩⟩) glyph = 0) := by
  subst hw
  refine ⟨?_, ?_, ?_⟩
  · intro hlt hle
    simp [GDEF_get_glyph_class, hle, hlt, List.getD_eq_getElem, List.get_eq_getElem]
  · intro hlt
    have hn : ¬ start ≤ glyph := by omega
    simp [GDEF_get_glyph_class, hn]
  · intro hge
    by_cases hle : start ≤ glyph
    · have hn : ¬ (glyph - start < arr.length) := by omega
      simp [GDEF_get_glyph_class, hle, hn]
    · simp [GDEF_get_glyph_class, hle]

/-- Witness for C4 at the spec's example: `class_array = [Base, Mark]`,
`start_glyph = 10`; classify 10 = Base, 11 = Mark, 9 and 12 Unclassified. -/
theorem C4_gdef_format1_classify_witness :
    (2 = [BaseGlyph, MarkGlyph].length) ∧
    GDEF_get_glyph_class (some ⟨some ⟨1, 10, 2, [BaseGlyph, MarkGlyph], 0, []⟩⟩) 10 = BaseGlyph ∧
    GDEF_get_glyph_class (some ⟨some ⟨1, 10, 2, [BaseGlyph, MarkGlyph], 0, []⟩⟩) 11 = MarkGlyph ∧
    GDEF_get_glyph_class (some ⟨some ⟨1, 10, 2, [BaseGlyph, MarkGlyph], 0, []⟩⟩) 9 = 0 ∧
    GDEF_get_glyph_class (some ⟨some ⟨1, 10, 2, [BaseGlyph, MarkGlyph], 0, []⟩⟩) 12 = 0 := by
  refine ⟨rfl, ?_, ?_, ?_, ?_⟩
  · have h := (C4_gdef_format1_classify 10 2 10 [BaseGlyph, MarkGlyph] rfl).1
      (by simp [BaseGlyph, MarkGlyph]) (by omega)
    simpa using h
  · have h := (C4_gdef_format1_classify 10 2 11 [BaseGlyph, MarkGlyph] rfl).1
      (by simp [BaseGlyph, MarkGlyph]) (by omega)
    simpa using h
  · exact (C4_gdef_format1_classify 10 2 9 [BaseGlyph, MarkGlyph] rfl).2.1 (by omega)
  · exact (C4_gdef_format1_classify 10 2 12 [BaseGlyph, MarkGlyph] rfl).2.2 (by simp)

/-- When no stored range of a format-2 subtable covers the glyph, the scan
returns 0. -/
theorem class_ranges_lookup_of_none (glyph : Nat) (recs : List GDEF_ClassRangeRecord)
    (h : ∀ r ∈ recs, ¬ (r.Start ≤ glyph ∧ glyph ≤ r.End)) :
    class_ranges_lookup glyph recs = 0 := by
  induction recs with
  | nil => rfl
  | cons a rest ih =>
    simp only [class_ranges_lookup]
    rw [if_neg (h a (List.mem_cons_self a rest))]
    exact ih fun r hr => h r (List.mem_cons_of_mem a hr)

/-- The scan returns the class of the first stored range covering the glyph. -/
theorem class_ranges_lookup_first (glyph : Nat) (recs : List GDEF_ClassRangeRecord)
    (i : Nat) (r : GDEF_ClassRangeRecord)
    (hi : recs.get? i = some r) (hr : r.Start ≤ glyph ∧ glyph ≤ r.End)
    (hmin : ∀ j r2, j < i → recs.get? j = some r2 → ¬ (r2.Start ≤ glyph ∧ glyph ≤ r2.End)) :
    class_ranges_lookup glyph recs = r.Class := by
  induction recs generalizing i with
  | nil => simp at hi
  | cons a rest ih =>
    simp only [class_ranges_lookup]
    by_cases ha : a.Start ≤ glyph ∧ glyph ≤ a.End
    · rw [if_pos ha]
      cases i with
      | zero => simp at hi; rw [hi]
      | succ i0 => exact absurd ha (hmin 0 a (Nat.succ_pos i0) rfl)
    · rw [if_neg ha]
      cases i with
      | zero =>
        simp at hi
        subst hi
        exact absurd hr ha
      | succ i0 =>
        refine ih i0 hi ?_
        intro j r2 hj hg
        exact hmin (j + 1) r2 (by omega) hg

/-- The claim C5: for a format-2 class-definition subtable the classifier
scans the ranges in stored order and returns the class of the first range
with `Start ≤ glyph ≤ End`, and 0 when no range matches; stated for
well-formed subtables whose stored `ClassRangeCount` equals the number of
stored ranges. -/
theorem C5_gdef_format2_classify (count glyph : Nat) (recs : List GDEF_ClassRangeRecord)
    (hw : count = recs.length) :
    (∀ i r, recs.get? i = some r → r.Start ≤ glyph ∧ glyph ≤ r.End →
      (∀ j r2, j < i → recs.get? j = some r2 → ¬ (r2.Start ≤ glyph ∧ glyph ≤ r2.End)) →
      GDEF_get_glyph_class (some ⟨some ⟨2, 0, 0, [], count, recs⟩⟩) glyph = r.Class) ∧
    ((∀ r ∈ recs, ¬ (r.Start ≤ glyph ∧ glyph ≤ r.End)) →
      GDEF_get_glyph_class (some ⟨some ⟨2, 0, 0, [], count, recs⟩⟩) glyph = 0) := by
  subst hw
  have htake : recs.take recs.length = recs := List.take_length recs
  constructor
  · intro i r hi hr hmin
    simp only [GDEF_get_glyph_class, if_neg (by omega : ¬ (2 : Nat) = 1), if_pos rfl, htake]
    exact class_ranges_lookup_first glyph recs i r hi hr hmin
  · intro h
    simp only [GDEF_get_glyph_class, if_neg (by omega : ¬ (2 : Nat) = 1), if_pos rfl, htake]
    exact class_ranges_lookup_of_none glyph recs h

/-- Witness for C5 at the spec's examples, including first-match semantics
on the overlapping ranges `[(1,5,Base),(3,3,Mark)]` where classify 3 = Base. -/
theorem C5_gdef_format2_classify_witness :
    ((2 : Nat) = [(⟨1, 5, BaseGlyph⟩ : GDEF_ClassRangeRecord), ⟨3, 3, MarkGlyph⟩].length) ∧
    GDEF_get_glyph_class
      (some ⟨some ⟨2, 0, 0, [], 2, [⟨1, 5, BaseGlyph⟩, ⟨3, 3, MarkGlyph⟩]⟩⟩) 3 = BaseGlyph ∧
    GDEF_get_glyph_class
      (some ⟨some ⟨2, 0, 0, [], 2, [⟨5, 7, MarkGlyph⟩, ⟨8, 8, LigatureGlyph⟩]⟩⟩) 6 = MarkGlyph ∧
    GDEF_get_glyph_class
      (some ⟨some ⟨2, 0, 0, [], 2, [⟨5, 7, MarkGlyph⟩, ⟨8, 8, LigatureGlyph⟩]⟩⟩) 8 = LigatureGlyph ∧
    GDEF_get_glyph_class
      (some ⟨some ⟨2, 0, 0, [], 2, [⟨5, 7, MarkGlyph⟩, ⟨8, 8, LigatureGlyph⟩]⟩⟩) 4 = 0 := by
  refine ⟨rfl, ?_, ?_, ?_, ?_⟩
  · exact (C5_gdef_format2_classify 2 3 [⟨1, 5, BaseGlyph⟩, ⟨3, 3, MarkGlyph⟩] rfl).1
      0 ⟨1, 5, BaseGlyph⟩ rfl (by norm_num) (by intro j r2 hj hg; omega)
  · exact (C5_gdef_format2_classify 2 6 [⟨5, 7, MarkGlyph⟩, ⟨8, 8, LigatureGlyph⟩] rfl).1
      0 ⟨5, 7, MarkGlyph⟩ rfl (by norm_num) (by intro j r2 hj hg; omega)
  · refine (C5_gdef_format2_classify 2 8 [⟨5, 7, MarkGlyph⟩, ⟨8, 8, LigatureGlyph⟩] rfl).1
      1 ⟨8, 8, LigatureGlyph⟩ rfl (by norm_num) ?_
    intro j r2 hj hg
    have hj0 : j = 0 := by omega
    subst hj0
    simp at hg
    subst hg
    norm_num
  · refine (C5_gdef_format2_classify 2 4 [⟨5, 7, MarkGlyph⟩, ⟨8, 8, LigatureGlyph⟩] rfl).2 ?_
    intro r hr
    simp at hr
    rcases hr with h | h <;> subst h <;> norm_num

/-- The claim C6: the classifier degrades to 0 (Unclassified) and never
hard-fails when the GDEF table is absent, when the header's
class-definition offset is zero, and when the stored class-definition
format is neither 1 nor 2 (the C code only logs the unrecognised format). -/
theorem C6_gdef_classify_degrades (glyph : Nat) (h : GDEF_Header)
    (cd : GDEF_ClassDefTable) (hfmt : cd.ClassFormat ≠ 1 ∧ cd.ClassFormat ≠ 2) :
    GDEF_get_glyph_class none glyph = 0 ∧
    (h.GlyphClassDef = none → GDEF_get_glyph_class (some h) glyph = 0) ∧
    GDEF_get_glyph_class (some ⟨some cd⟩) glyph = 0 := by
  refine ⟨rfl, ?_, ?_⟩
  · intro hz
    simp [GDEF_get_glyph_class, hz]
  · simp [GDEF_get_glyph_class, if_neg hfmt.1, if_neg hfmt.2]

/-- Witness for C6: an absent table, a zero class-definition offset, and a
stored format of 7 all classify to 0. -/
theorem C6_gdef_classify_degrades_witness :
    ((⟨none⟩ : GDEF_Header).GlyphClassDef = none) ∧
    ((7 : Nat) ≠ 1 ∧ (7 : Nat) ≠ 2) ∧
    GDEF_get_glyph_class none 42 = 0 ∧
    GDEF_get_glyph_class (some ⟨none⟩) 42 = 0 ∧
    GDEF_get_glyph_class (some ⟨some ⟨7, 0, 0, [], 0, []⟩⟩) 42 = 0 := by
  have h := C6_gdef_classify_degrades 42 ⟨none⟩ ⟨7, 0, 0, [], 0, []⟩ (by norm_num)
  exact ⟨rfl, by omega, h.1, h.2.1 rfl, h.2.2⟩

/-! ## Glyph property annotation (`OpenType_GDEF_UpdateGlyphProps`) -/

/-- The three shaping bits of `SCRIPT_GLYPHPROP.sva` that
`OpenType_GDEF_UpdateGlyphProps` writes. -/
structure SCRIPT_GLYPHPROP where
  fClusterStart : Bool
  fDiacritic : Bool
  fZeroWidth : Bool
deriving DecidableEq

/-- The `switch (class)` statement of `OpenType_GDEF_UpdateGlyphProps`
(opentype.c lines 275-303): cases 0 and `BaseGlyph`, `LigatureGlyph`,
`MarkGlyph`, `ComponentGlyph`, and the logged default. -/
def propsForClass (cls : Nat) : SCRIPT_GLYPHPROP :=
  if cls = 0 then ⟨true, false, false⟩
  else if cls = BaseGlyph then ⟨true, false, false⟩
  else if cls = LigatureGlyph then ⟨true, false, false⟩
  else if cls = MarkGlyph then ⟨false, true, true⟩
  else if cls = ComponentGlyph then ⟨false, false, false⟩
  else ⟨true, false, false⟩

/-- Embedding of the per-glyph loop of `OpenType_GDEF_UpdateGlyphProps`
(opentype.c lines 263-307).  The glyph array with its count `cGlyphs` and
the cluster map with its count `cChars` are modelled as lists; the GDEF
header is the one the cache holds after the fetch-on-miss of lines
260-261, which is modelled separately at the byte level. -/
def OpenType_GDEF_UpdateGlyphProps (gdef : Option GDEF_Header)
    (pwGlyphs : List Nat) (pwLogClust : List Nat) : List SCRIPT_GLYPHPROP :=
  (List.range pwGlyphs.length).map (fun i =>
    let char_count := pwLogClust.count i
    let p := propsForClass (GDEF_get_glyph_class gdef (pwGlyphs.getD i 0))
    if char_count = 0 then ⟨false, p.fDiacritic, p.fZeroWidth⟩ else p)

/-- Field values of the switch result, by glyph class: cluster_start for
everything except Mark and Component, diacritic and zero_width exactly
for Mark. -/
theorem propsForClass_fields (cls : Nat) :
    ((propsForClass cls).fClusterStart = true ↔ (cls ≠ MarkGlyph ∧ cls ≠ ComponentGlyph)) ∧
    ((propsForClass cls).fDiacritic = true ↔ cls = MarkGlyph) ∧
    ((propsForClass cls).fZeroWidth = true ↔ cls = MarkGlyph) := by
  unfold propsForClass BaseGlyph LigatureGlyph MarkGlyph ComponentGlyph
  split_ifs with h0 h1 h2 h3 h4 <;> refine ⟨?_, ?_, ?_⟩ <;> simp <;> omega

/-- The claim C3: the annotator emits exactly one property record per
glyph in input order; record `i` is determined by glyph `i`'s class
(cluster_start for Unclassified, Base, Ligature and unrecognised classes,
diacritic and zero_width exactly for Mark, all false for Component), its
`char_count` is the number of cluster-map entries equal to `i`, and
`char_count = 0` forces `cluster_start = false` regardless of class. -/
theorem C3_update_glyph_props (gdef : Option GDEF_Header)
    (glyphs clust : List Nat) :
    (OpenType_GDEF_UpdateGlyphProps gdef glyphs clust).length = glyphs.length ∧
    ∀ i, i < glyphs.length →
      ∃ p, (OpenType_GDEF_UpdateGlyphProps gdef glyphs clust).get? i = some p ∧
        (p.fClusterStart = true ↔
          (clust.count i ≠ 0 ∧
           GDEF_get_glyph_class gdef (glyphs.getD i 0) ≠ MarkGlyph ∧
           GDEF_get_glyph_class gdef (glyphs.getD i 0) ≠ ComponentGlyph)) ∧
        (p.fDiacritic = true ↔ GDEF_get_glyph_class gdef (glyphs.getD i 0) = MarkGlyph) ∧
        (p.fZeroWidth = true ↔ GDEF_get_glyph_class gdef (glyphs.getD i 0) = MarkGlyph) := by
  constructor
  · simp [OpenType_GDEF_UpdateGlyphProps]
  · intro i hi
    have hmap : (OpenType_GDEF_UpdateGlyphProps gdef glyphs clust).get? i =
        some (if clust.count i = 0 then
                ⟨false,
                 (propsForClass (GDEF_get_glyph_class gdef (glyphs.getD i 0))).fDiacritic,
                 (propsForClass (GDEF_get_glyph_class gdef (glyphs.getD i 0))).fZeroWidth⟩
              else propsForClass (GDEF_get_glyph_class gdef (glyphs.getD i 0))) := by
      rw [OpenType_GDEF_UpdateGlyphProps, List.get?_map, List.get?_range hi]
      rfl
    refine ⟨_, hmap, ?_, ?_, ?_⟩
    · by_cases hc : clust.count i = 0
      · rw [if_pos hc]
        simp [hc]
      · rw [if_neg hc, (propsForClass_fields (GDEF_get_glyph_class gdef (glyphs.getD i 0))).1]
        simp [hc]
    · by_cases hc : clust.count i = 0
      · rw [if_pos hc]
        exact (propsForClass_fields (GDEF_get_glyph_class gdef (glyphs.getD i 0))).2.1
      · rw [if_neg hc]
        exact (propsForClass_fields (GDEF_get_glyph_class gdef (glyphs.getD i 0))).2.1
    · by_cases hc : clust.count i = 0
      · rw [if_pos hc]
        exact (propsForClass_fields (GDEF_get_glyph_class gdef (glyphs.getD i 0))).2.2
      · rw [if_neg hc]
        exact (propsForClass_fields (GDEF_get_glyph_class gdef (glyphs.getD i 0))).2.2

/-- Witness for C3: one Base-class glyph mapped from one character, and a
second glyph mapped from zero characters whose cluster_start is forced off. -/
theorem C3_update_glyph_props_witness :
    (1 < [10, 11].length) ∧
    ∃ p, (OpenType_GDEF_UpdateGlyphProps none [10, 11] [0, 0]).get? 1 = some p ∧
      p.fClusterStart = false ∧ p.fDiacritic = false ∧ p.fZeroWidth = false := by
  refine ⟨by norm_num, ?_⟩
  obtain ⟨p, hp, hcs, hd, hz⟩ :=
    (C3_update_glyph_props none [10, 11] [0, 0]).2 1 (by norm_num)
  refine ⟨p, hp, ?_, ?_, ?_⟩
  · rw [← Bool.not_eq_true]
    intro hq
    have := hcs.mp hq
    simp at this
  · rw [← Bool.not_eq_true]
    intro hq
    have := hd.mp hq
    simp [GDEF_get_glyph_class, MarkGlyph] at this
  · rw [← Bool.not_eq_true]
    intro hq
    have := hz.mp hq
    simp [GDEF_get_glyph_class, MarkGlyph] at this

/-! ## cmap format 12, record level

`CMAP_SegmentedCoverage` models the parsed format-12 subtable view the
resolver binary-searches: the stored `nGroups` count and the segment
groups.  The header words (`format`, `reserved`, `length`, `language`)
and the encoding-record directory that locates the subtable are parsed at
the byte level below (`cmap_find_format12`).  All values are the
big-endian-decoded `Nat` contents of the stored fields. -/

structure CMAP_SegmentedCoverage_group where
  startCharCode : Nat
  endCharCode : Nat
  startGlyphID : Nat
deriving DecidableEq

structure CMAP_SegmentedCoverage where
  nGroups : Nat
  groups : List CMAP_SegmentedCoverage_group
deriving DecidableEq

/-- The per-context cache slot `psc->CMAP_format12_Table`. The raw
`psc->CMAP_Table` buffer slot is modelled at the byte level below. -/
structure ScriptCache where
  CMAP_format12_Table : Option CMAP_SegmentedCoverage
deriving DecidableEq

/-- Modelled from the spec: the `GGI_MARK_NONEXISTING_GLYPHS` flag bit of
the external `GetGlyphIndices` interface (the `mark_nonexistent` flag),
whose header is not part of this repository. -/
def GGI_MARK_NONEXISTING_GLYPHS : Nat := 1

/-- The not-found sentinel written to `*pgi` before the search
(opentype.c lines 170-173): 0xFFFF when `GGI_MARK_NONEXISTING_GLYPHS` is
set, 0 otherwise. -/
def cmap_sentinel (flags : Nat) : Nat :=
  if flags &&& GGI_MARK_NONEXISTING_GLYPHS ≠ 0 then 0xffff else 0

/-- Embedding of `compare_group` (opentype.c lines 146-156): orders the
codepoint before a group when below its `startCharCode`, after it when
above its `endCharCode`, and reports a match otherwise. -/
def compare_group (chr : Nat) (g : CMAP_SegmentedCoverage_group) : Int :=
  if chr < g.startCharCode then -1
  else if chr > g.endCharCode then 1
  else 0

/-- The C `bsearch` over `nGroups` segment groups with comparator
`compare_group`, searching the index window `[lo, lo + n)`: probe the
middle element, recurse left when the comparator is negative, right when
positive, and return the probed group on a match. -/
def bsearchAux (chr : Nat) (gs : List CMAP_SegmentedCoverage_group) (lo n : Nat) :
    Option CMAP_SegmentedCoverage_group :=
  if h : n = 0 then none
  else
    match gs.get? (lo + n / 2) with
    | none => none
    | some g =>
      if compare_group chr g < 0 then bsearchAux chr gs lo (n / 2)
      else if 0 < compare_group chr g then bsearchAux chr gs (lo + n / 2 + 1) (n - n / 2 - 1)
      else some g
termination_by n
decreasing_by all_goals omega

/-- The comparator is negative exactly below the group's range. -/
theorem compare_group_neg (chr : Nat) (g : CMAP_SegmentedCoverage_group) :
    compare_group chr g < 0 ↔ chr < g.startCharCode := by
  unfold compare_group
  split_ifs with h1 h2 <;> norm_num <;> omega

/-- The comparator is positive exactly above the group's range. -/
theorem compare_group_pos (chr : Nat) (g : CMAP_SegmentedCoverage_group) :
    0 < compare_group chr g ↔ (g.startCharCode ≤ chr ∧ g.endCharCode < chr) := by
  unfold compare_group
  split_ifs with h1 h2 <;> norm_num <;> omega

/-- Soundness of the binary search: a returned group is a stored group
whose range contains the codepoint. -/
theorem bsearchAux_sound (chr : Nat) (gs : List CMAP_SegmentedCoverage_group) :
    ∀ n lo g, bsearchAux chr gs lo n = some g →
      g ∈ gs ∧ g.startCharCode ≤ chr ∧ chr ≤ g.endCharCode := by
  intro n
  induction n using Nat.strong_induction_on with
  | _ n ih =>
    intro lo g hg
    rw [bsearchAux] at hg
    split at hg
    · exact absurd hg (by simp)
    · rename_i hn
      split at hg
      · exact absurd hg (by simp)
      · rename_i gmid hmid
        split_ifs at hg with hlt hgt
        · exact ih (n / 2) (by omega) lo g hg
        · exact ih (n - n / 2 - 1) (by omega) (lo + n / 2 + 1) g hg
        · have hgg : gmid = g := by injection hg
          subst hgg
          have hmem : gmid ∈ gs := List.mem_iff_get?.mpr ⟨_, hmid⟩
          have h1 := (compare_group_neg chr gmid).not.mp hlt
          have h2 := (compare_group_pos chr gmid).not.mp hgt
          exact ⟨hmem, by omega, by omega⟩

/-- Sortedness invariant of the stored segment groups assumed from the
format: each group's range is non-empty in order, and ranges of
earlier-stored groups end strictly before later-stored ranges start. -/
def groupsSorted (gs : List CMAP_SegmentedCoverage_group) : Prop :=
  (∀ g ∈ gs, g.startCharCode ≤ g.endCharCode) ∧
  (∀ i j gi gj, i < j → gs.get? i = some gi → gs.get? j = some gj →
    gi.endCharCode < gj.startCharCode)

/-- Completeness of the binary search on sorted groups: when a stored
group inside the searched window contains the codepoint, the search
returns exactly that group. -/
theorem bsearchAux_find (chr : Nat) (gs : List CMAP_SegmentedCoverage_group)
    (hs : groupsSorted gs) :
    ∀ n lo k gk, lo + n ≤ gs.length → lo ≤ k → k < lo + n →
      gs.get? k = some gk → gk.startCharCode ≤ chr → chr ≤ gk.endCharCode →
      bsearchAux chr gs lo n = some gk := by
  intro n
  induction n using Nat.strong_induction_on with
  | _ n ih =>
    intro lo k gk hlen hlok hkhi hget hc1 hc2
    have hn : n ≠ 0 := by omega
    rw [bsearchAux, dif_neg hn]
    split
    · rename_i heq
      have hmidlt : lo + n / 2 < gs.length := by omega
      rw [List.get?_eq_get hmidlt] at heq
      exact absurd heq (by simp)
    · rename_i gmid heq
      have hmem : gmid ∈ gs := List.mem_iff_get?.mpr ⟨_, heq⟩
      have hwf := hs.1 _ hmem
      by_cases hlt : compare_group chr gmid < 0
      · rw [if_pos hlt]
        have hcl := (compare_group_neg chr _).mp hlt
        have hkmid : k < lo + n / 2 := by
          rcases Nat.lt_trichotomy k (lo + n / 2) with h | h | h
          · exact h
          · rw [h] at hget
            rw [hget] at heq
            injection heq with heq
            subst heq
            omega
          · have := hs.2 (lo + n / 2) k gmid gk h heq hget
            omega
        exact ih (n / 2) (by omega) lo k gk (by omega) hlok hkmid hget hc1 hc2
      · rw [if_neg hlt]
        by_cases hgt : 0 < compare_group chr gmid
        · rw [if_pos hgt]
          have hcg := (compare_group_pos chr _).mp hgt
          have hkmid : lo + n / 2 < k := by
            rcases Nat.lt_trichotomy k (lo + n / 2) with h | h | h
            · have := hs.2 k (lo + n / 2) gk gmid h hget heq
              omega
            · rw [h] at hget
              rw [hget] at heq
              injection heq with heq
              subst heq
              omega
            · exact h
          exact ih (n - n / 2 - 1) (by omega) (lo + n / 2 + 1) k gk (by omega) (by omega)
            (by omega) hget hc1 hc2
        · rw [if_neg hgt]
          have h1 := (compare_group_neg chr _).not.mp hlt
          have h2 := (compare_group_pos chr _).not.mp hgt
          have hk : k = lo + n / 2 := by
            rcases Nat.lt_trichotomy k (lo + n / 2) with h | h | h
            · have := hs.2 k (lo + n / 2) gk gmid h hget heq
              omega
            · exact h
            · have := hs.2 (lo + n / 2) k gmid gk h heq hget
              omega
          rw [hk] at hget
          rw [hget] at heq
          injection heq with heq
          rw [heq]

/-- The view consulted by the supplementary path: the cached
`psc->CMAP_format12_Table` if already set, otherwise the result of
`load_CMAP_format12_table` (opentype.c lines 167-168). -/
def cmap_table_after_load (load12 : Option CMAP_SegmentedCoverage)
    (psc : ScriptCache) : Option CMAP_SegmentedCoverage :=
  match psc.CMAP_format12_Table with
  | some v => some v
  | none => load12

/-- Embedding of `OpenType_CMAP_GetGlyphIndex` (opentype.c lines
158-193), returning (function result, value written to `*pgi`, updated
cache).  `bmp` is the external `GetGlyphIndicesW` collaborator returning
(result, written glyph); `load12` is the view `load_CMAP_format12_table`
would produce on this context.  `*pgi` is a 16-bit `WORD`, so the glyph
computation (done in 32-bit `DWORD`) is stored `% 65536`. -/
def OpenType_CMAP_GetGlyphIndex (bmp : Nat → Nat → Nat × Nat)
    (load12 : Option CMAP_SegmentedCoverage) (psc : ScriptCache)
    (utf32c flags : Nat) : Nat × Nat × ScriptCache :=
  if utf32c < 0x10000 then
    ((bmp (utf32c % 65536) flags).1, (bmp (utf32c % 65536) flags).2, psc)
  else
    let tab := cmap_table_after_load load12 psc
    match tab with
    | some fmt =>
      match bsearchAux utf32c fmt.groups 0 fmt.nGroups with
      | some g => (0, (g.startGlyphID + (utf32c - g.startCharCode)) % 65536, ⟨tab⟩)
      | none => (0, cmap_sentinel flags, ⟨tab⟩)
    | none => (0, cmap_sentinel flags, ⟨tab⟩)

/-! ## C1, C2, C10 : resolver behaviour -/

/-- The claim C1: against a loaded format-12 view (sorted, well-formed
groups: stored `nGroups` equal to the number of stored groups), a
supplementary-plane codepoint resolves to `startGlyphID + (c -
startCharCode)` of the unique group with `startCharCode ≤ c ≤
endCharCode` (stated for glyph values that fit the 16-bit `WORD`
out-parameter), and to the not-found sentinel when no group's range
contains the codepoint. -/
theorem C1_format12_resolution (bmp : Nat → Nat → Nat × Nat)
    (load12 : Option CMAP_SegmentedCoverage) (psc : ScriptCache)
    (v : CMAP_SegmentedCoverage) (utf32c flags : Nat)
    (hv : psc.CMAP_format12_Table = some v)
    (hn : v.nGroups = v.groups.length)
    (hs : groupsSorted v.groups)
    (hc : 0x10000 ≤ utf32c) :
    (∀ g, g ∈ v.groups → g.startCharCode ≤ utf32c → utf32c ≤ g.endCharCode →
      g.startGlyphID + (utf32c - g.startCharCode) < 65536 →
      (OpenType_CMAP_GetGlyphIndex bmp load12 psc utf32c flags).2.1 =
        g.startGlyphID + (utf32c - g.startCharCode)) ∧
    ((∀ g, g ∈ v.groups → ¬ (g.startCharCode ≤ utf32c ∧ utf32c ≤ g.endCharCode)) →
      (OpenType_CMAP_GetGlyphIndex bmp load12 psc utf32c flags).2.1 = cmap_sentinel flags) := by
  have hnc : ¬ utf32c < 0x10000 := by omega
  have htab : cmap_table_after_load load12 psc = some v := by
    simp [cmap_table_after_load, hv]
  constructor
  · intro g hg h1 h2 hfit
    obtain ⟨k, hk⟩ := List.mem_iff_get?.mp hg
    have hklen : k < v.groups.length := (List.get?_eq_some.mp hk).1
    have hb : bsearchAux utf32c v.groups 0 v.groups.length = some g :=
      bsearchAux_find utf32c v.groups hs v.groups.length 0 k g (by omega) (by omega)
        (by omega) hk h1 h2
    simp [OpenType_CMAP_GetGlyphIndex, if_neg hnc, htab, hn, hb, Nat.mod_eq_of_lt hfit]
  · intro hnone
    have hb : bsearchAux utf32c v.groups 0 v.groups.length = none := by
      cases hcase : bsearchAux utf32c v.groups 0 v.groups.length with
      | none => rfl
      | some g =>
        obtain ⟨hmem, h1, h2⟩ := bsearchAux_sound utf32c v.groups _ _ g hcase
        exact absurd ⟨h1, h2⟩ (hnone g hmem)
    simp [OpenType_CMAP_GetGlyphIndex, if_neg hnc, htab, hn, hb]

/-- Witness for C1 at the spec's example view with the single group
`{start=0x10000, end=0x10002, start_glyph=5}`: codepoints 0x10000,
0x10001, 0x10002 resolve to glyphs 5, 6, 7, and 0x10003 to the sentinel
for both flag settings. -/
theorem C1_format12_resolution_witness :
    groupsSorted [(⟨0x10000, 0x10002, 5⟩ : CMAP_SegmentedCoverage_group)] ∧
    (OpenType_CMAP_GetGlyphIndex (fun a b => (a, b)) none
      ⟨some ⟨1, [⟨0x10000, 0x10002, 5⟩]⟩⟩ 0x10000 0).2.1 = 5 ∧
    (OpenType_CMAP_GetGlyphIndex (fun a b => (a, b)) none
      ⟨some ⟨1, [⟨0x10000, 0x10002, 5⟩]⟩⟩ 0x10001 0).2.1 = 6 ∧
    (OpenType_CMAP_GetGlyphIndex (fun a b => (a, b)) none
      ⟨some ⟨1, [⟨0x10000, 0x10002, 5⟩]⟩⟩ 0x10002 0).2.1 = 7 ∧
    (OpenType_CMAP_GetGlyphIndex (fun a b => (a, b)) none
      ⟨some ⟨1, [⟨0x10000, 0x10002, 5⟩]⟩⟩ 0x10003 0).2.1 = 0 ∧
    (OpenType_CMAP_GetGlyphIndex (fun a b => (a, b)) none
      ⟨some ⟨1, [⟨0x10000, 0x10002, 5⟩]⟩⟩ 0x10003 1).2.1 = 0xffff := by
  have hsorted : groupsSorted [(⟨0x10000, 0x10002, 5⟩ : CMAP_SegmentedCoverage_group)] := by
    constructor
    · intro g hg
      simp at hg
      subst hg
      norm_num
    · intro i j gi gj hij hi hj
      have hjlen : j < 1 := by
        have := (List.get?_eq_some.mp hj).1
        simpa using this
      omega
  have happ := fun c =>
    C1_format12_resolution (fun a b => (a, b)) none ⟨some ⟨1, [⟨0x10000, 0x10002, 5⟩]⟩⟩
      ⟨1, [⟨0x10000, 0x10002, 5⟩]⟩ c 0 rfl rfl hsorted
  have happ1 := fun c =>
    C1_format12_resolution (fun a b => (a, b)) none ⟨some ⟨1, [⟨0x10000, 0x10002, 5⟩]⟩⟩
      ⟨1, [⟨0x10000, 0x10002, 5⟩]⟩ c 1 rfl rfl hsorted
  refine ⟨hsorted, ?_, ?_, ?_, ?_, ?_⟩
  · have h := ((happ 0x10000) (by norm_num)).1 ⟨0x10000, 0x10002, 5⟩ (by norm_num)
      (by norm_num) (by norm_num) (by norm_num)
    simpa using h
  · have h := ((happ 0x10001) (by norm_num)).1 ⟨0x10000, 0x10002, 5⟩ (by norm_num)
      (by norm_num) (by norm_num) (by norm_num)
    simpa using h
  · have h := ((happ 0x10002) (by norm_num)).1 ⟨0x10000, 0x10002, 5⟩ (by norm_num)
      (by norm_num) (by norm_num) (by norm_num)
    simpa using h
  · have h := ((happ 0x10003) (by norm_num)).2 ?_
    · simpa [cmap_sentinel, GGI_MARK_NONEXISTING_GLYPHS] using h
    · intro g hg
      simp at hg
      subst hg
      norm_num
  · have h := ((happ1 0x10003) (by norm_num)).2 ?_
    · simpa [cmap_sentinel, GGI_MARK_NONEXISTING_GLYPHS] using h
    · intro g hg
      simp at hg
      subst hg
      norm_num

/-- The claim C2: for codepoints below 0x10000 the resolver delegates
entirely to the external BMP lookup collaborator and returns its result
and return value; the cache state is returned unchanged, and the result
does not depend on what a cmap format-12 load would produce (no fetch,
no parse). -/
theorem C2_bmp_delegation (bmp : Nat → Nat → Nat × Nat)
    (load12a load12b : Option CMAP_SegmentedCoverage) (psc : ScriptCache)
    (utf32c flags : Nat) (hc : utf32c < 0x10000) :
    OpenType_CMAP_GetGlyphIndex bmp load12a psc utf32c flags =
      ((bmp utf32c flags).1, (bmp utf32c flags).2, psc) ∧
    OpenType_CMAP_GetGlyphIndex bmp load12a psc utf32c flags =
      OpenType_CMAP_GetGlyphIndex bmp load12b psc utf32c flags := by
  have hm : utf32c % 65536 = utf32c := Nat.mod_eq_of_lt (by omega)
  constructor <;> simp [OpenType_CMAP_GetGlyphIndex, if_pos hc, hm]

/-- Witness for C2: a BMP codepoint resolved through a concrete external
lookup, with two different pending cmap views giving the same answer. -/
theorem C2_bmp_delegation_witness :
    (0x41 < 0x10000) ∧
    OpenType_CMAP_GetGlyphIndex (fun a b => (a + b, 2 * a)) none ⟨none⟩ 0x41 1 =
      (0x41 + 1, 2 * 0x41, ⟨none⟩) ∧
    OpenType_CMAP_GetGlyphIndex (fun a b => (a + b, 2 * a)) none ⟨none⟩ 0x41 1 =
      OpenType_CMAP_GetGlyphIndex (fun a b => (a + b, 2 * a))
        (some ⟨0, []⟩) ⟨none⟩ 0x41 1 := by
  have h := C2_bmp_delegation (fun a b => (a + b, 2 * a)) none (some ⟨0, []⟩) ⟨none⟩ 0x41 1
    (by norm_num)
  exact ⟨by norm_num, h.1, h.2⟩

/-- The claim C10: for supplementary-plane codepoints the function result
of `OpenType_CMAP_GetGlyphIndex` is always 0 (view absent, unmatched, or
matched alike), and the `*pgi` out-parameter is always written: it holds
the sentinel unless the binary search matched a group, in which case it
holds the computed glyph; success is distinguishable only through `*pgi`. -/
theorem C10_supp_result_contract (bmp : Nat → Nat → Nat × Nat)
    (load12 : Option CMAP_SegmentedCoverage) (psc : ScriptCache)
    (utf32c flags : Nat) (hc : 0x10000 ≤ utf32c) :
    (OpenType_CMAP_GetGlyphIndex bmp load12 psc utf32c flags).1 = 0 ∧
    ((OpenType_CMAP_GetGlyphIndex bmp load12 psc utf32c flags).2.1 = cmap_sentinel flags ∨
      ∃ fmt g, cmap_table_after_load load12 psc = some fmt ∧
        bsearchAux utf32c fmt.groups 0 fmt.nGroups = some g ∧
        (OpenType_CMAP_GetGlyphIndex bmp load12 psc utf32c flags).2.1 =
          (g.startGlyphID + (utf32c - g.startCharCode)) % 65536) := by
  have hnc : ¬ utf32c < 0x10000 := by omega
  cases htab : cmap_table_after_load load12 psc with
  | none =>
    constructor
    · simp [OpenType_CMAP_GetGlyphIndex, if_neg hnc, htab]
    · left
      simp [OpenType_CMAP_GetGlyphIndex, if_neg hnc, htab]
  | some fmt =>
    cases hb : bsearchAux utf32c fmt.groups 0 fmt.nGroups with
    | none =>
      constructor
      · simp [OpenType_CMAP_GetGlyphIndex, if_neg hnc, htab, hb]
      · left
        simp [OpenType_CMAP_GetGlyphIndex, if_neg hnc, htab, hb]
    | some g =>
      constructor
      · simp [OpenType_CMAP_GetGlyphIndex, if_neg hnc, htab, hb]
      · right
        exact ⟨fmt, g, rfl, hb,
          by simp [OpenType_CMAP_GetGlyphIndex, if_neg hnc, htab, hb]⟩

/-- Witness for C10: with no view available, the result is 0 and the
out-parameter holds the sentinel. -/
theorem C10_supp_result_contract_witness :
    (0x10000 ≤ 0x2F800) ∧
    (OpenType_CMAP_GetGlyphIndex (fun a b => (a, b)) none ⟨none⟩ 0x2F800 1).1 = 0 ∧
    (OpenType_CMAP_GetGlyphIndex (fun a b => (a, b)) none ⟨none⟩ 0x2F800 1).2.1 =
      cmap_sentinel 1 := by
  have h := C10_supp_result_contract (fun a b => (a, b)) none ⟨none⟩ 0x2F800 1 (by norm_num)
  refine ⟨by norm_num, h.1, ?_⟩
  rcases h.2 with h2 | ⟨fmt, g, hfmt, hb, hg⟩
  · exact h2
  · exact absurd hfmt (by simp [cmap_table_after_load])

/-! ## Byte level: raw buffers, big-endian reads, the table loads

The fetched tables are byte lists.  `read_u16`/`read_u32` are the
big-endian field reads (`GET_BE_WORD`/`GET_BE_DWORD` applied to the bytes
at an offset); they return `none` when the read would go past the end of
the fetched buffer, which in the original pointer-cast code is an
out-of-bounds access. -/

def read_u16 (buf : List Nat) (off : Nat) : Option Nat :=
  match buf.get? off, buf.get? (off + 1) with
  | some b0, some b1 => some (b0 * 256 + b1)
  | _, _ => none

def read_u32 (buf : List Nat) (off : Nat) : Option Nat :=
  match buf.get? off, buf.get? (off + 1), buf.get? (off + 2), buf.get? (off + 3) with
  | some b0, some b1, some b2, some b3 =>
    some (((b0 * 256 + b1) * 256 + b2) * 256 + b3)
  | _, _, _, _ => none

/-- Outcome of the encoding-record directory scan of
`load_CMAP_format12_table`: a platform-3/encoding-10 record whose
subtable declares format 12 was found at `off`; no such record exists
(the C function returns NULL); or the scan had to read past the end of
the fetched buffer (an out-of-bounds access of the original code). -/
inductive ScanResult where
  | found12 (off : Nat)
  | notFound
  | oob
deriving DecidableEq

/-- The directory loop of `load_CMAP_format12_table` (opentype.c lines
133-142): walk the remaining encoding records (8 bytes each: platformID,
encodingID, offset) starting at byte `recOff`; on a platform-3
encoding-10 record read the subtable's leading format word at its
offset, returning it when it is 12 and continuing the loop otherwise. -/
def cmap_scan_records (buf : List Nat) : Nat → Nat → ScanResult
  | 0, _ => ScanResult.notFound
  | n + 1, recOff =>
    match read_u16 buf recOff, read_u16 buf (recOff + 2), read_u32 buf (recOff + 4) with
    | some pid, some eid, some off =>
      if pid = 3 ∧ eid = 10 then
        match read_u16 buf off with
        | some fmt =>
          if fmt = 12 then ScanResult.found12 off else cmap_scan_records buf n (recOff + 8)
        | none => ScanResult.oob
      else cmap_scan_records buf n (recOff + 8)
    | _, _, _ => ScanResult.oob

/-- The directory scan of a fetched `cmap` buffer: read the `numTables`
word at byte 2 of the `CMAP_Header` and walk that many encoding records
starting at byte 4. -/
def cmap_find_format12 (buf : List Nat) : ScanResult :=
  match read_u16 buf 2 with
  | some numTables => cmap_scan_records buf numTables 4
  | none => ScanResult.oob

/-- A big-endian 16-bit read succeeds when its two bytes are in bounds. -/
theorem read_u16_eq (buf : List Nat) (off : Nat) (h : off + 2 ≤ buf.length) :
    read_u16 buf off = some (buf.getD off 0 * 256 + buf.getD (off + 1) 0) := by
  have h0 : off < buf.length := by omega
  have h1 : off + 1 < buf.length := by omega
  simp [read_u16, List.getElem?_eq_getElem h0, List.getElem?_eq_getElem h1]

/-- A big-endian 32-bit read succeeds when its four bytes are in bounds. -/
theorem read_u32_eq (buf : List Nat) (off : Nat) (h : off + 4 ≤ buf.length) :
    read_u32 buf off = some (((buf.getD off 0 * 256 + buf.getD (off + 1) 0) * 256 +
      buf.getD (off + 2) 0) * 256 + buf.getD (off + 3) 0) := by
  have h0 : off < buf.length := by omega
  have h1 : off + 1 < buf.length := by omega
  have h2 : off + 2 < buf.length := by omega
  have h3 : off + 3 < buf.length := by omega
  simp [read_u32, List.getElem?_eq_getElem h0, List.getElem?_eq_getElem h1,
    List.getElem?_eq_getElem h2, List.getElem?_eq_getElem h3]

/-- When every encoding record of the window fits in the buffer and
every platform-3/encoding-10 record's subtable offset leaves room for the
format word, the directory scan performs no out-of-bounds read. -/
theorem cmap_scan_records_inbounds (buf : List Nat) :
    ∀ n recOff, recOff + 8 * n ≤ buf.length →
      (∀ i off, i < n →
        read_u16 buf (recOff + 8 * i) = some 3 →
        read_u16 buf (recOff + 8 * i + 2) = some 10 →
        read_u32 buf (recOff + 8 * i + 4) = some off →
        off + 2 ≤ buf.length) →
      cmap_scan_records buf n recOff ≠ ScanResult.oob := by
  intro n
  induction n with
  | zero =>
    intro recOff hlen hsub
    simp [cmap_scan_records]
  | succ m ih =>
    intro recOff hlen hsub
    have hpid := read_u16_eq buf recOff (by omega)
    have heid := read_u16_eq buf (recOff + 2) (by omega)
    have hoff := read_u32_eq buf (recOff + 4) (by omega)
    rw [cmap_scan_records]
    simp only [hpid, heid, hoff]
    by_cases hpe : buf.getD recOff 0 * 256 + buf.getD (recOff + 1) 0 = 3 ∧
        buf.getD (recOff + 2) 0 * 256 + buf.getD (recOff + 2 + 1) 0 = 10
    · rw [if_pos hpe]
      have hob : ((buf.getD (recOff + 4) 0 * 256 + buf.getD (recOff + 4 + 1) 0) * 256 +
          buf.getD (recOff + 4 + 2) 0) * 256 + buf.getD (recOff + 4 + 3) 0 + 2 ≤ buf.length := by
        refine hsub 0 _ (by omega) ?_ ?_ ?_
        · simpa using hpid ▸ (by rw [hpe.1])
        · simpa using heid ▸ (by rw [hpe.2])
        · simpa using hoff
      rw [read_u16_eq buf _ hob]
      split
      · split_ifs with hf
        · simp
        · refine ih (recOff + 8) (by omega) ?_
          intro i off hi h3 h10 ho
          have hrw : recOff + 8 + 8 * i = recOff + 8 * (i + 1) := by ring
          rw [hrw] at h3 h10 ho
          exact hsub (i + 1) off (by omega) h3 h10 ho
      · rename_i heq
        exact absurd heq (by simp)
    · rw [if_neg hpe]
      refine ih (recOff + 8) (by omega) ?_
      intro i off hi h3 h10 ho
      have hrw : recOff + 8 + 8 * i = recOff + 8 * (i + 1) := by ring
      rw [hrw] at h3 h10 ho
      exact hsub (i + 1) off (by omega) h3 h10 ho

/-! ## The provider and the lazy table cache

`FontProvider` models the two-stage `GetFontData` interface for the two
tags.  `cmapLen`/`gdefLen` is the result of the length query with a null
buffer (`none` = `GDI_ERROR`, the tag is absent); `cmapData`/`gdefData`
is what the filling call writes into the allocated buffer; and
`cmapFillOk`/`gdefFillOk` is the success report of the filling call.
The C code never inspects the filling call's return value (opentype.c
lines 124 and 250 discard it), so the `FillOk` fields are not consulted
by the load functions. -/

structure FontProvider where
  cmapLen : Option Nat
  cmapData : List Nat
  cmapFillOk : Bool
  gdefLen : Option Nat
  gdefData : List Nat
  gdefFillOk : Bool
deriving DecidableEq

/-- Embedding of `load_gdef_table` (opentype.c lines 243-254): length
query, and on success allocate and fill.  Returns the fetched buffer (or
`none` when the length query failed) and the number of `GetFontData`
provider calls issued. -/
def load_gdef_table (p : FontProvider) : Option (List Nat) × Nat :=
  match p.gdefLen with
  | none => (none, 1)
  | some _ => (some p.gdefData, 2)

/-- The GDEF fetch-on-miss of `OpenType_GDEF_UpdateGlyphProps`
(opentype.c lines 260-261): keep a cached buffer, otherwise store
whatever `load_gdef_table` returns.  Returns the new `psc->GDEF_Table`
slot and the number of provider calls issued. -/
def update_gdef_cache (p : FontProvider) (st : Option (List Nat)) :
    Option (List Nat) × Nat :=
  match st with
  | some t => (some t, 0)
  | none => load_gdef_table p

/-- Embedding of `load_CMAP_format12_table` (opentype.c lines 112-144):
fetch and store the raw `cmap` buffer unless already cached (returning
NULL immediately when the length query fails), then scan the encoding
directory of the stored buffer.  Returns the new `psc->CMAP_Table` slot,
the scan result (`found12 off` models the non-NULL subtable pointer,
`notFound` the NULL return), and the number of provider calls issued. -/
def load_CMAP_format12_table (p : FontProvider) (cmapTable : Option (List Nat)) :
    Option (List Nat) × ScanResult × Nat :=
  match cmapTable with
  | some buf => (some buf, cmap_find_format12 buf, 0)
  | none =>
    match p.cmapLen with
    | none => (none, ScanResult.notFound, 1)
    | some _ => (some p.cmapData, cmap_find_format12 p.cmapData, 2)

/-! ## C7, C8 : cache behaviour -/

/-- The claim C7: caching is idempotent per tag.  After a first
successful fetch stored a buffer for GDEF or for cmap, every subsequent
request on that context returns the identical stored buffer (and for
cmap, the scan result over that same buffer) and issues zero provider
calls, whatever provider (`q`) would answer a new fetch. -/
theorem C7_cache_idempotent (p q : FontProvider) (buf : List Nat)
    (r : ScanResult) (c1 c2 : Nat) :
    (update_gdef_cache p none = (some buf, c1) →
      update_gdef_cache q (some buf) = (some buf, 0)) ∧
    (load_CMAP_format12_table p none = (some buf, r, c2) →
      load_CMAP_format12_table q (some buf) = (some buf, r, 0)) := by
  constructor
  · intro h
    rfl
  · intro h
    cases hc : p.cmapLen with
    | none =>
      rw [load_CMAP_format12_table] at h
      simp only [hc] at h
      simp at h
    | some len =>
      rw [load_CMAP_format12_table] at h
      simp only [hc] at h
      simp only [Prod.mk.injEq, Option.some.injEq] at h
      obtain ⟨h1, h2, h3⟩ := h
      subst h1
      subst h2
      rfl

/-- Witness for C7: a provider holding a 1-byte GDEF table and a 4-byte
cmap table with no encoding records; the second request for each tag
returns the stored buffer with zero provider calls. -/
theorem C7_cache_idempotent_witness :
    update_gdef_cache ⟨some 4, [0, 0, 0, 0], true, some 1, [9], true⟩ none =
      (some [9], 2) ∧
    update_gdef_cache ⟨some 4, [0, 0, 0, 0], true, some 1, [9], true⟩ (some [9]) =
      (some [9], 0) ∧
    load_CMAP_format12_table ⟨some 4, [0, 0, 0, 0], true, some 1, [9], true⟩ none =
      (some [0, 0, 0, 0], ScanResult.notFound, 2) ∧
    load_CMAP_format12_table ⟨some 4, [0, 0, 0, 0], true, some 1, [9], true⟩
        (some [0, 0, 0, 0]) =
      (some [0, 0, 0, 0], ScanResult.notFound, 0) := by
  refine ⟨rfl, ?_, rfl, ?_⟩
  · exact (C7_cache_idempotent ⟨some 4, [0, 0, 0, 0], true, some 1, [9], true⟩
      ⟨some 4, [0, 0, 0, 0], true, some 1, [9], true⟩ [9] ScanResult.notFound 2 2).1 rfl
  · exact (C7_cache_idempotent ⟨some 4, [0, 0, 0, 0], true, some 1, [9], true⟩
      ⟨some 4, [0, 0, 0, 0], true, some 1, [9], true⟩ [0, 0, 0, 0]
      ScanResult.notFound 2 2).2 rfl

/-- Counterexample to the claim C8 as stated: the claim says a short or
failed buffer-filling call leaves the cache empty, but the code never
checks the filling call's result, so with a provider whose length query
succeeds and whose filling call fails the buffer is cached anyway. -/
theorem C8_fill_failure_cached_counterexample :
    ((⟨some 4, [0, 0, 0, 0], false, none, [], false⟩ : FontProvider).cmapFillOk = false) ∧
    (load_CMAP_format12_table ⟨some 4, [0, 0, 0, 0], false, none, [], false⟩ none).1 =
      some [0, 0, 0, 0] ∧
    (load_CMAP_format12_table ⟨some 4, [0, 0, 0, 0], false, none, [], false⟩ none).1 ≠
      none :=
  ⟨rfl, rfl, by simp [load_CMAP_format12_table]⟩

/-- The claim C8 as amended: only a failed length query (tag absent)
leaves the cache empty, in which case the state stays `none` and any
subsequent request issues a fresh provider call (at least one, no
negative caching); the filling call's success flag is never consulted,
so the buffer is cached regardless of it. -/
theorem C8_retry_on_length_failure (p : FontProvider) :
    (p.cmapLen = none →
      load_CMAP_format12_table p none = (none, ScanResult.notFound, 1)) ∧
    (p.gdefLen = none → update_gdef_cache p none = (none, 1)) ∧
    (∀ q : FontProvider, 1 ≤ (load_CMAP_format12_table q none).2.2 ∧
      1 ≤ (update_gdef_cache q none).2) ∧
    (∀ b : Bool,
      load_CMAP_format12_table
        ⟨p.cmapLen, p.cmapData, b, p.gdefLen, p.gdefData, p.gdefFillOk⟩ none =
        load_CMAP_format12_table p none ∧
      update_gdef_cache
        ⟨p.cmapLen, p.cmapData, p.cmapFillOk, p.gdefLen, p.gdefData, b⟩ none =
        update_gdef_cache p none) := by
  refine ⟨?_, ?_, ?_, ?_⟩
  · intro h
    simp [load_CMAP_format12_table, h]
  · intro h
    simp [update_gdef_cache, load_gdef_table, h]
  · intro q
    constructor
    · cases hq : q.cmapLen <;> simp [load_CMAP_format12_table, hq]
    · cases hq : q.gdefLen <;> simp [update_gdef_cache, load_gdef_table, hq]
  · intro b
    exact ⟨rfl, rfl⟩

/-- Witness for C8 (amended): a provider on which both length queries
fail caches nothing, and any request with an empty cache issues at least
one provider call. -/
theorem C8_retry_on_length_failure_witness :
    ((⟨none, [], true, none, [], true⟩ : FontProvider).cmapLen = none) ∧
    ((⟨none, [], true, none, [], true⟩ : FontProvider).gdefLen = none) ∧
    load_CMAP_format12_table ⟨none, [], true, none, [], true⟩ none =
      (none, ScanResult.notFound, 1) ∧
    update_gdef_cache ⟨none, [], true, none, [], true⟩ none = (none, 1) ∧
    1 ≤ (load_CMAP_format12_table ⟨none, [], true, none, [], true⟩ none).2.2 := by
  have h := C8_retry_on_length_failure ⟨none, [], true, none, [], true⟩
  exact ⟨rfl, rfl, h.1 rfl, h.2.1 rfl, (h.2.2.1 ⟨none, [], true, none, [], true⟩).1⟩

/-! ## C9 : bounds behaviour of the offset arithmetic -/

/-- Counterexample to the claim C9 as stated: a 4-byte `cmap` buffer
whose stored `numTables` word is 1 makes the directory scan read the
first encoding record at bytes 4..11, past the end of the fetched
buffer; the scan result is an out-of-bounds access, not the
subtable-absent result the claim requires. -/
theorem C9_oob_counterexample :
    cmap_find_format12 [0, 0, 0, 1] = ScanResult.oob ∧
    cmap_find_format12 [0, 0, 0, 1] ≠ ScanResult.notFound := by
  exact ⟨rfl, by decide⟩

/-- The claim C9 as amended: the code performs no bounds checks of its
own, and a stored count that overruns the fetched buffer can make the
directory scan read out of bounds instead of treating the subtable as
absent, as the counterexample above shows; what holds is the sufficient
condition: whenever the stored counts and offsets fit inside the buffer
— `numTables` encoding records fitting after the 4-byte header, and
every matching record's subtable offset leaving room for its format
word — the directory scan stays within the fetched buffer. -/
theorem C9_scan_inbounds_when_counts_fit (buf : List Nat) (numTables : Nat)
    (h2 : read_u16 buf 2 = some numTables)
    (hfit : 4 + 8 * numTables ≤ buf.length)
    (hsub : ∀ i off, i < numTables →
      read_u16 buf (4 + 8 * i) = some 3 →
      read_u16 buf (4 + 8 * i + 2) = some 10 →
      read_u32 buf (4 + 8 * i + 4) = some off →
      off + 2 ≤ buf.length) :
    cmap_find_format12 buf ≠ ScanResult.oob := by
  rw [cmap_find_format12]
  simp only [h2]
  exact cmap_scan_records_inbounds buf numTables 4 (by omega) hsub

/-- Witness for C9 (amended): a 12-byte buffer with one non-matching
encoding record scans without any out-of-bounds read. -/
theorem C9_scan_inbounds_witness :
    read_u16 [0, 0, 0, 1, 0, 0, 0, 0, 0, 0, 0, 0] 2 = some 1 ∧
    4 + 8 * 1 ≤ [0, 0, 0, 1, 0, 0, 0, 0, 0, 0, 0, 0].length ∧
    cmap_find_format12 [0, 0, 0, 1, 0, 0, 0, 0, 0, 0, 0, 0] ≠ ScanResult.oob := by
  refine ⟨rfl, by decide, ?_⟩
  refine C9_scan_inbounds_when_counts_fit [0, 0, 0, 1, 0, 0, 0, 0, 0, 0, 0, 0] 1 rfl
    (by decide) ?_
  intro i off hi h3 h10 ho
  have hi0 : i = 0 := by omega
  subst hi0
  have h0 : read_u16 [0, 0, 0, 1, 0, 0, 0, 0, 0, 0, 0, 0] (4 + 8 * 0) = some 0 := rfl
  rw [h0] at h3
  simp at h3
